import Mathlib

/-!
Shallow embedding of the table controller in `src/app/app.component.ts`
(class `AppComponent`): an in-memory data grid with debounced search,
per-column sort toggling, and fixed-size pagination.

Modelling conventions:
* JS numbers that hold integral values (prices, page counters) are `Int`/`Nat`.
* `Array.prototype.sort` with a comparator is a stable sort in which `a`
  precedes `b` whenever the comparator returns a value that is not positive;
  it is modelled with `List.mergeSort`.
* `String.prototype.localeCompare` is modelled as the sign of the ambient
  linear order on `String` (lexicographic by code point).
* The RxJS `BehaviorSubject` is modelled by the `published` field (its current
  value) plus `pubCount` (how many times `next` has run), so that "nothing is
  re-published" is expressible.
* `FormControl.value` of the search box is the `searchText` field.
-/

namespace GridApp

/-- Sort direction: the source stores the strings `'asc'` and `'desc'`. -/
inductive SortDir where
  | asc
  | desc
deriving DecidableEq, Repr

/-- A JavaScript value that record field access `item[attr]` can produce:
a string, a number, or `undefined` when `attr` names no field. -/
inductive JsVal where
  | str (s : String)
  | num (n : Int)
  | undefined
deriving DecidableEq, Repr

/-- The record interface `DataType` of the source: fields `make`, `model`
(strings) and `price` (a number). -/
structure DataType where
  make : String
  model : String
  price : Int
deriving DecidableEq, Repr

/-- Whether the pattern (first argument) occurs at the start of the text
(second argument). Helper for `isSubList`. -/
def isPrefList : List Char → List Char → Bool
  | [], _ => true
  | _ :: _, [] => false
  | a :: ts, b :: ss => a == b && isPrefList ts ss

/-- Whether the pattern (first argument) occurs contiguously anywhere in the
text (second argument). -/
def isSubList (t : List Char) : List Char → Bool
  | [] => isPrefList t []
  | b :: rest => isPrefList t (b :: rest) || isSubList t rest

/-- JS `s.includes(t)`: `t` occurs as a contiguous substring of `s`. -/
def jsIncludes (s t : String) : Bool :=
  isSubList t.data s.data

/-- JS `s.toLowerCase()` as a list of characters (`String.toLower` maps
`Char.toLower` over the characters; this structural version lets the kernel
evaluate it). -/
def toLowerChars (s : String) : List Char :=
  s.data.map Char.toLower

/-- Lexicographic three-way comparison of character lists by code point. -/
def listCompare : List Char → List Char → Int
  | [], [] => 0
  | [], _ :: _ => -1
  | _ :: _, [] => 1
  | a :: as, b :: bs =>
    if a.toNat < b.toNat then -1
    else if b.toNat < a.toNat then 1
    else listCompare as bs

/-- Model of JS `a.localeCompare(b)`: the sign of a lexicographic string
comparison by code point. -/
def strCompare (a b : String) : Int :=
  listCompare a.data b.data

/-- The fixed page size of the component (`pageSize = 10`). -/
def pageSize : Nat := 10

/-- The mutable fields of `AppComponent`: the dataset, the search control's
value, the sort state, the pagination counters, and the `BehaviorSubject`
contents (`published`) together with its emission count (`pubCount`). -/
structure AppState where
  data : List DataType
  searchText : String
  currentSortDirection : Option SortDir
  currentSortAttribute : Option String
  currentPage : Nat
  totalPages : Nat
  published : List DataType
  pubCount : Nat
deriving DecidableEq, Repr

/-- The filter predicate inside `searchData`: `make` or `model` contains the
text case-insensitively, or the decimal string of `price` contains it
literally. -/
def matchesText (text : String) (item : DataType) : Bool :=
  (isSubList (toLowerChars text) (toLowerChars item.make)
    || isSubList (toLowerChars text) (toLowerChars item.model))
  || jsIncludes (toString item.price) text

/-- Method `searchData(text)`: keeps the whole dataset when the text is empty,
otherwise filters it; recomputes `totalPages` as `Math.ceil(length / pageSize)`
(for naturals, `(length + pageSize - 1) / pageSize`); returns the filtered
data together with the updated state. -/
def searchData (st : AppState) (text : String) : List DataType × AppState :=
  let filteredData := if text = "" then st.data else st.data.filter (matchesText text)
  let tp := (filteredData.length + pageSize - 1) / pageSize
  (filteredData, { st with totalPages := tp })

/-- Call `dataSubject.next(d)`: replaces the subject's value and emits. -/
def publish (st : AppState) (d : List DataType) : AppState :=
  { st with published := d, pubCount := st.pubCount + 1 }

/-- Method `updateDisplayedData()`: re-filters by the search control's current
value and publishes the result. -/
def updateDisplayedData (st : AppState) : AppState :=
  let p := searchData st st.searchText
  publish p.2 p.1

/-- Method `nextPage()`: increments the page and republishes when more pages
remain (guard `currentPage < totalPages - 1` over JS numbers). -/
def nextPage (st : AppState) : AppState :=
  if (st.currentPage : Int) < (st.totalPages : Int) - 1 then
    updateDisplayedData { st with currentPage := st.currentPage + 1 }
  else st

/-- Method `previousPage()`: decrements the page and republishes when the
current page is positive. -/
def previousPage (st : AppState) : AppState :=
  if st.currentPage > 0 then
    updateDisplayedData { st with currentPage := st.currentPage - 1 }
  else st

/-- Method `jumpToPage(event)`: the select element's value is coerced with
`Number(...)`; `none` models a non-numeric value (NaN), for which both bounds
comparisons are false. In range, the page is set and data republished. -/
def jumpToPage (st : AppState) (selectedPage : Option Int) : AppState :=
  match selectedPage with
  | none => st
  | some n =>
    if 0 ≤ n ∧ n < (st.totalPages : Int) then
      updateDisplayedData { st with currentPage := n.toNat }
    else st

/-- JS `typeof` on a field value. -/
def jsTypeof : JsVal → String
  | .str _ => "string"
  | .num _ => "number"
  | .undefined => "undefined"

/-- Dynamic field access `item[attr]` on a record of the fixed schema. -/
def getAttr (item : DataType) (attr : String) : JsVal :=
  if attr = "make" then .str item.make
  else if attr = "model" then .str item.model
  else if attr = "price" then .num item.price
  else .undefined

/-- The comparator body of `sortData` before direction negation: strings
compare by `localeCompare`, numbers by subtraction, and any other combination
of types leaves `comparison` at its initial value `0`. -/
def cmpVal : JsVal → JsVal → Int
  | .str a, .str b => strCompare a b
  | .num a, .num b => a - b
  | _, _ => 0

/-- The full comparator passed to `sortedArray.sort`: the attribute values are
compared with `cmpVal` and the result is negated for descending order. -/
def sortComparator (sortAttribute : String) (dir : SortDir) (a b : DataType) : Int :=
  let comparison := cmpVal (getAttr a sortAttribute) (getAttr b sortAttribute)
  if dir = .desc then -comparison else comparison

/-- JS `Array.prototype.sort` with a comparator: stable, `a` stays before `b`
whenever the comparator is not positive on `(a, b)`. -/
def jsSort (cmp : DataType → DataType → Int) (l : List DataType) : List DataType :=
  l.mergeSort (fun a b => decide (cmp a b ≤ 0))

/-- The direction chosen by `sortData(attr)`: toggled when `attr` is already
the current sort attribute (a `null` direction toggles to ascending, as in the
source ternary), ascending otherwise. -/
def newDirection (st : AppState) (sortAttribute : String) : SortDir :=
  if st.currentSortAttribute = some sortAttribute then
    (if st.currentSortDirection = some .asc then .desc else .asc)
  else .asc

/-- Method `sortData(attr)`: updates the sort state, stably sorts a copy of
the currently published array with the direction-aware comparator, and
publishes it. -/
def sortData (st : AppState) (sortAttribute : String) : AppState :=
  let dir := newDirection st sortAttribute
  let st1 := { st with currentSortAttribute := some sortAttribute,
                       currentSortDirection := some dir }
  let sortedArray := jsSort (sortComparator sortAttribute dir) st.published
  publish st1 sortedArray

/-- A debounced emission of the search control with value `text`: the control
holds `text`, and the subscription publishes `searchData text`. -/
def searchEmit (st : AppState) (text : String) : AppState :=
  let st0 := { st with searchText := text }
  let p := searchData st0 text
  publish p.2 p.1

/-- The page a subscriber of `sortedData` sees: the slice
`[currentPage * pageSize, (currentPage + 1) * pageSize)` of the published
data. -/
def visiblePage (st : AppState) : List DataType :=
  (st.published.drop (st.currentPage * pageSize)).take pageSize

/-- The dataset filtered by the current search text, in dataset order. -/
def filteredNow (st : AppState) : List DataType :=
  if st.searchText = "" then st.data else st.data.filter (matchesText st.searchText)

/-- The pipeline the code actually runs on search emissions and page
navigation: filter by the current text, then slice — with no sort step. -/
def filterPipeline (st : AppState) : List DataType :=
  ((filteredNow st).drop (st.currentPage * pageSize)).take pageSize

/-- The derivation pipeline as the specification words it (spec section 4.4):
filter by the current search text, then sort the filtered records whenever a
sort attribute is set, then slice the current page. Refinement target to be
compared with the behaviour of the code. -/
def specPipeline (st : AppState) : List DataType :=
  let filtered := filteredNow st
  let sorted :=
    match st.currentSortAttribute, st.currentSortDirection with
    | some attr, some dir => jsSort (sortComparator attr dir) filtered
    | _, _ => filtered
  (sorted.drop (st.currentPage * pageSize)).take pageSize

/-- The page-index invariant claimed by the specification:
`0 ≤ currentPage < max 1 totalPages` (the lower bound is inherent to `Nat`). -/
abbrev pageInvariant (st : AppState) : Prop :=
  st.currentPage < max 1 st.totalPages

/-- Consistency of the cached `totalPages` field with the current filter; this
holds in every state the component actually reaches. -/
abbrev totalPagesConsistent (st : AppState) : Prop :=
  st.totalPages = ((filteredNow st).length + pageSize - 1) / pageSize

/-! Concrete sample data for witnesses and counterexamples. -/

/-- Sample record with the highest price. -/
def rAlpha : DataType := ⟨"alpha", "m1", 2⟩

/-- Sample record with a low price. -/
def rBeta : DataType := ⟨"beta", "m2", 1⟩

/-- Sample record tied with `rBeta` on price. -/
def rGamma : DataType := ⟨"gamma", "m3", 1⟩

/-- A small reachable-looking state over two records. -/
def baseState : AppState :=
  { data := [rAlpha, rBeta], searchText := "", currentSortDirection := none,
    currentSortAttribute := none, currentPage := 0, totalPages := 1,
    published := [rAlpha, rBeta], pubCount := 1 }

/-- Records for the shrinking-search scenario; all share make "aa". -/
def mkA (i : Nat) : DataType := ⟨"aa", "m", (i : Int)⟩

/-- A state on page 1 of 2, with a 12-record dataset of which only one
record matches the text "bb". -/
def shrinkState : AppState :=
  { data := [mkA 10, mkA 11, mkA 12, mkA 13, mkA 14, mkA 15, mkA 16, mkA 17,
             mkA 18, mkA 19, mkA 20, ⟨"bb", "m", 99⟩],
    searchText := "", currentSortDirection := none, currentSortAttribute := none,
    currentPage := 1, totalPages := 2,
    published := [], pubCount := 1 }

/-- A state that has been sorted by price ascending: the published data is the
sorted copy, while the dataset keeps its original order. -/
def sortedByPriceState : AppState :=
  { data := [rAlpha, rBeta], searchText := "", currentSortDirection := some .asc,
    currentSortAttribute := some "price", currentPage := 0, totalPages := 1,
    published := [rBeta, rAlpha], pubCount := 2 }

/-- A state whose published records are tied on price. -/
def tiedPriceState : AppState :=
  { data := [rBeta, rGamma], searchText := "", currentSortDirection := none,
    currentSortAttribute := none, currentPage := 0, totalPages := 1,
    published := [rBeta, rGamma], pubCount := 1 }

/-- A three-page state used to exercise the navigation guards. -/
def midPageState : AppState :=
  { data := [rAlpha, rBeta], searchText := "", currentSortDirection := some .asc,
    currentSortAttribute := some "price", currentPage := 1, totalPages := 3,
    published := [rBeta, rAlpha], pubCount := 2 }

/-! Basic facts about the embedded operations. -/

theorem isSubList_nil (l : List Char) : isSubList [] l = true := by
  cases l <;> simp [isSubList, isPrefList]

theorem matchesText_empty (r : DataType) : matchesText "" r = true := by
  have h0 : toLowerChars "" = [] := rfl
  have h1 : ("" : String).data = [] := rfl
  simp [matchesText, jsIncludes, h0, h1, isSubList_nil]

theorem filter_matchesText_empty (l : List DataType) :
    l.filter (matchesText "") = l :=
  List.filter_eq_self.mpr (fun a _ => matchesText_empty a)

theorem filteredNow_eq_filter (st : AppState) :
    filteredNow st = st.data.filter (matchesText st.searchText) := by
  unfold filteredNow
  by_cases h : st.searchText = ""
  · rw [h, if_pos rfl, filter_matchesText_empty]
  · rw [if_neg h]

theorem updateDisplayedData_eq (st : AppState) :
    updateDisplayedData st =
      { st with totalPages := ((filteredNow st).length + pageSize - 1) / pageSize,
                published := filteredNow st,
                pubCount := st.pubCount + 1 } := rfl

theorem sortData_published (st : AppState) (attr : String) :
    (sortData st attr).published =
      jsSort (sortComparator attr (newDirection st attr)) st.published := rfl

theorem listCompare_self : ∀ l : List Char, listCompare l l = 0
  | [] => rfl
  | a :: as => by
    have ih := listCompare_self as
    simp [listCompare, Nat.lt_irrefl, ih]

theorem listCompare_antisymm : ∀ a b : List Char, listCompare a b = -listCompare b a
  | [], [] => rfl
  | [], _ :: _ => rfl
  | _ :: _, [] => rfl
  | a :: as, b :: bs => by
    have ih := listCompare_antisymm as bs
    simp only [listCompare]
    split_ifs <;> omega

theorem listCompare_nonpos_trans : ∀ a b c : List Char,
    listCompare a b ≤ 0 → listCompare b c ≤ 0 → listCompare a c ≤ 0
  | [], _, [], _, _ => by simp [listCompare]
  | [], _, _ :: _, _, _ => by simp only [listCompare]; omega
  | _ :: _, [], _, h1, _ => by simp only [listCompare] at h1; omega
  | _ :: _, _ :: _, [], _, h2 => by simp only [listCompare] at h2; omega
  | a :: as, b :: bs, c :: cs, h1, h2 => by
    have ih := listCompare_nonpos_trans as bs cs
    simp only [listCompare] at h1 h2 ⊢
    split_ifs at h1 h2 ⊢ <;> first | exact ih h1 h2 | omega

theorem strCompare_antisymm (a b : String) : strCompare a b = -strCompare b a :=
  listCompare_antisymm a.data b.data

theorem strCompare_self (a : String) : strCompare a a = 0 :=
  listCompare_self a.data

theorem strCompare_nonpos_trans (a b c : String)
    (h1 : strCompare a b ≤ 0) (h2 : strCompare b c ≤ 0) : strCompare a c ≤ 0 :=
  listCompare_nonpos_trans a.data b.data c.data h1 h2

theorem cmpVal_self (v : JsVal) : cmpVal v v = 0 := by
  cases v with
  | str s => simpa [cmpVal] using strCompare_self s
  | num n => simp [cmpVal]
  | undefined => rfl

theorem cmpVal_antisymm (v w : JsVal) : cmpVal v w = -cmpVal w v := by
  cases v <;> cases w <;> simp [cmpVal] <;> try omega
  exact strCompare_antisymm ..

theorem cmpVal_getAttr_trans (attr : String) (a b c : DataType)
    (h1 : cmpVal (getAttr a attr) (getAttr b attr) ≤ 0)
    (h2 : cmpVal (getAttr b attr) (getAttr c attr) ≤ 0) :
    cmpVal (getAttr a attr) (getAttr c attr) ≤ 0 := by
  unfold getAttr at h1 h2 ⊢
  split_ifs at h1 h2 ⊢ <;> simp only [cmpVal] at h1 h2 ⊢ <;>
    first
      | exact strCompare_nonpos_trans _ _ _ h1 h2
      | omega

theorem sortComparator_asc (attr : String) (a b : DataType) :
    sortComparator attr .asc a b = cmpVal (getAttr a attr) (getAttr b attr) := rfl

theorem sortComparator_desc (attr : String) (a b : DataType) :
    sortComparator attr .desc a b = -(cmpVal (getAttr a attr) (getAttr b attr)) := rfl

theorem sortComparator_antisymm (attr : String) (d : SortDir) (a b : DataType) :
    sortComparator attr d a b = -sortComparator attr d b a := by
  cases d with
  | asc =>
    rw [sortComparator_asc, sortComparator_asc]
    exact cmpVal_antisymm ..
  | desc =>
    rw [sortComparator_desc, sortComparator_desc]
    have := cmpVal_antisymm (getAttr a attr) (getAttr b attr)
    omega

theorem comparator_le_trans (attr : String) (d : SortDir) (a b c : DataType)
    (hab : decide (sortComparator attr d a b ≤ 0) = true)
    (hbc : decide (sortComparator attr d b c ≤ 0) = true) :
    decide (sortComparator attr d a c ≤ 0) = true := by
  rw [decide_eq_true_iff] at hab hbc ⊢
  cases d with
  | asc =>
    rw [sortComparator_asc] at hab hbc ⊢
    exact cmpVal_getAttr_trans attr a b c hab hbc
  | desc =>
    rw [sortComparator_desc] at hab hbc ⊢
    have hcb : cmpVal (getAttr c attr) (getAttr b attr) ≤ 0 := by
      have := cmpVal_antisymm (getAttr b attr) (getAttr c attr)
      omega
    have hba : cmpVal (getAttr b attr) (getAttr a attr) ≤ 0 := by
      have := cmpVal_antisymm (getAttr a attr) (getAttr b attr)
      omega
    have hca := cmpVal_getAttr_trans attr c b a hcb hba
    have := cmpVal_antisymm (getAttr a attr) (getAttr c attr)
    omega

theorem comparator_le_total (attr : String) (d : SortDir) (a b : DataType) :
    (decide (sortComparator attr d a b ≤ 0) || decide (sortComparator attr d b a ≤ 0)) = true := by
  rw [Bool.or_eq_true, decide_eq_true_iff, decide_eq_true_iff]
  have := sortComparator_antisymm attr d a b
  omega

theorem perm_pair_cases {α : Type} {x y a b : α} (h : ([x, y] : List α).Perm [a, b]) :
    (x = a ∧ y = b) ∨ (x = b ∧ y = a) := by
  have hx : x = a ∨ x = b := by
    have := h.mem_iff.mp (show x ∈ [x, y] by simp)
    simpa using this
  rcases hx with hxa | hxb
  · subst hxa
    have ht := (List.perm_cons x).mp h
    have hyb : y = b := by simpa using List.perm_singleton.mp ht
    exact Or.inl ⟨rfl, hyb⟩
  · have hy : y = a ∨ y = b := by
      have := h.mem_iff.mp (show y ∈ [x, y] by simp)
      simpa using this
    rcases hy with hya | hyb
    · exact Or.inr ⟨hxb, hya⟩
    · have ha : a = x ∨ a = y := by
        have := h.symm.mem_iff.mp (show a ∈ [a, b] by simp)
        simpa using this
      rcases ha with hax | hay
      · exact Or.inl ⟨hax.symm, hyb⟩
      · have hab : a = b := hay.trans hyb
        exact Or.inl ⟨hxb.trans hab.symm, hyb⟩

theorem length_eq_two_cases {α : Type} {l : List α} (h : l.length = 2) :
    ∃ x y, l = [x, y] := by
  cases l with
  | nil => simp at h
  | cons x t =>
    cases t with
    | nil => simp at h
    | cons y t2 =>
      cases t2 with
      | nil => exact ⟨x, y, rfl⟩
      | cons z t3 => simp at h

theorem mergeSort_swap (attr : String) (d : SortDir) (a b : DataType)
    (h : decide (sortComparator attr d a b ≤ 0) = false) :
    [a, b].mergeSort (fun x y => decide (sortComparator attr d x y ≤ 0)) = [b, a] := by
  have hperm := List.mergeSort_perm [a, b] (fun x y => decide (sortComparator attr d x y ≤ 0))
  have hsort := @List.sorted_mergeSort DataType (fun x y => decide (sortComparator attr d x y ≤ 0))
    (fun x y z => comparator_le_trans attr d x y z)
    (fun x y => comparator_le_total attr d x y) [a, b]
  have hlen : ([a, b].mergeSort (fun x y => decide (sortComparator attr d x y ≤ 0))).length = 2 := by
    rw [List.length_mergeSort]
    rfl
  obtain ⟨x, y, hxy⟩ := length_eq_two_cases hlen
  rw [hxy] at hperm hsort ⊢
  rcases perm_pair_cases hperm with ⟨rfl, rfl⟩ | ⟨rfl, rfl⟩
  · exfalso
    have hxyle : decide (sortComparator attr d x y ≤ 0) = true := by
      have := List.pairwise_cons.mp hsort
      simpa using this.1 y (by simp)
    rw [hxyle] at h
    simp at h
  · rfl

theorem eq_of_perm_of_pairwise {α : Type} {R : α → α → Prop}
    (hasymm : ∀ a b, R a b → ¬ R b a) :
    ∀ {l₁ l₂ : List α}, l₁.Perm l₂ → l₁.Pairwise R → l₂.Pairwise R → l₁ = l₂ := by
  intro l₁
  induction l₁ with
  | nil =>
    intro l₂ hp _ _
    exact (hp.symm.eq_nil).symm
  | cons a t ih =>
    intro l₂ hp h1 h2
    cases l₂ with
    | nil => exact hp.eq_nil
    | cons b t₂ =>
      obtain ⟨hr1, ht1⟩ := List.pairwise_cons.mp h1
      obtain ⟨hr2, ht2⟩ := List.pairwise_cons.mp h2
      by_cases hab : a = b
      · subst hab
        have ht := (List.perm_cons a).mp hp
        rw [ih ht ht1 ht2]
      · exfalso
        have hamem : a ∈ b :: t₂ := hp.mem_iff.mp (by simp)
        have hat : a ∈ t₂ := by
          rcases List.mem_cons.mp hamem with h | h
          · exact absurd h hab
          · exact h
        have hbmem : b ∈ a :: t := hp.symm.mem_iff.mp (by simp)
        have hbt : b ∈ t := by
          rcases List.mem_cons.mp hbmem with h | h
          · exact absurd h.symm hab
          · exact h
        exact hasymm a b (hr1 b hbt) (hr2 a hat)

theorem mergeSort_filter_tied (attr : String) (d : SortDir) (k : JsVal) (l : List DataType) :
    (l.mergeSort (fun x y => decide (sortComparator attr d x y ≤ 0))).filter
        (fun r => decide (getAttr r attr = k))
      = l.filter (fun r => decide (getAttr r attr = k)) := by
  have hpair : (l.filter (fun r => decide (getAttr r attr = k))).Pairwise
      (fun x y => decide (sortComparator attr d x y ≤ 0) = true) := by
    apply List.pairwise_of_forall_mem_list
    intro a ha b hb
    have hak := (List.mem_filter.mp ha).2
    have hbk := (List.mem_filter.mp hb).2
    simp only [decide_eq_true_iff] at hak hbk ⊢
    cases d with
    | asc =>
      rw [sortComparator_asc, hak, hbk]
      simp [cmpVal_self]
    | desc =>
      rw [sortComparator_desc, hak, hbk]
      simp [cmpVal_self]
  have hsub : (l.filter (fun r => decide (getAttr r attr = k))).Sublist
      (l.mergeSort (fun x y => decide (sortComparator attr d x y ≤ 0))) :=
    List.sublist_mergeSort
      (fun x y z => comparator_le_trans attr d x y z)
      (fun x y => comparator_le_total attr d x y)
      hpair (List.filter_sublist l)
  have heq : (l.filter (fun r => decide (getAttr r attr = k))).filter
      (fun r => decide (getAttr r attr = k)) = l.filter (fun r => decide (getAttr r attr = k)) :=
    List.filter_eq_self.mpr (fun r hr => (List.mem_filter.mp hr).2)
  have hsub2 : (l.filter (fun r => decide (getAttr r attr = k))).Sublist
      ((l.mergeSort (fun x y => decide (sortComparator attr d x y ≤ 0))).filter
          (fun r => decide (getAttr r attr = k))) := by
    have h := List.Sublist.filter (fun r => decide (getAttr r attr = k)) hsub
    rw [heq] at h
    exact h
  have hperm : ((l.mergeSort (fun x y => decide (sortComparator attr d x y ≤ 0))).filter
        (fun r => decide (getAttr r attr = k))).Perm
      (l.filter (fun r => decide (getAttr r attr = k))) :=
    (List.mergeSort_perm l (fun x y => decide (sortComparator attr d x y ≤ 0))).filter _
  exact (hsub2.eq_of_length hperm.length_eq.symm).symm

theorem cmp_ne_symm (attr : String) (a b : DataType)
    (h : cmpVal (getAttr a attr) (getAttr b attr) ≠ 0) :
    cmpVal (getAttr b attr) (getAttr a attr) ≠ 0 := by
  have := cmpVal_antisymm (getAttr a attr) (getAttr b attr)
  omega

theorem jsSort_desc_reverse (attr : String) (l : List DataType)
    (hdist : l.Pairwise (fun a b => cmpVal (getAttr a attr) (getAttr b attr) ≠ 0)) :
    jsSort (sortComparator attr .desc) (jsSort (sortComparator attr .asc) l)
      = (jsSort (sortComparator attr .asc) l).reverse := by
  unfold jsSort
  have hperm1 := List.mergeSort_perm l (fun x y => decide (sortComparator attr SortDir.asc x y ≤ 0))
  have hsort1 := @List.sorted_mergeSort DataType
    (fun x y => decide (sortComparator attr SortDir.asc x y ≤ 0))
    (fun x y z => comparator_le_trans attr .asc x y z)
    (fun x y => comparator_le_total attr .asc x y) l
  have hdist1 : (l.mergeSort (fun x y => decide (sortComparator attr SortDir.asc x y ≤ 0))).Pairwise
      (fun a b => cmpVal (getAttr a attr) (getAttr b attr) ≠ 0) :=
    (List.Perm.pairwise_iff (fun {x y} hxy => cmp_ne_symm attr x y hxy) hperm1).mpr hdist
  have hlt1 : (l.mergeSort (fun x y => decide (sortComparator attr SortDir.asc x y ≤ 0))).Pairwise
      (fun a b => cmpVal (getAttr a attr) (getAttr b attr) < 0) := by
    refine (hsort1.and hdist1).imp ?_
    intro a b hab
    obtain ⟨h1, h2⟩ := hab
    rw [decide_eq_true_iff, sortComparator_asc] at h1
    omega
  have hsort2 := @List.sorted_mergeSort DataType
    (fun x y => decide (sortComparator attr SortDir.desc x y ≤ 0))
    (fun x y z => comparator_le_trans attr .desc x y z)
    (fun x y => comparator_le_total attr .desc x y)
    (l.mergeSort (fun x y => decide (sortComparator attr SortDir.asc x y ≤ 0)))
  have hperm2 := List.mergeSort_perm
    (l.mergeSort (fun x y => decide (sortComparator attr SortDir.asc x y ≤ 0)))
    (fun x y => decide (sortComparator attr SortDir.desc x y ≤ 0))
  have hdist2 : ((l.mergeSort (fun x y => decide (sortComparator attr SortDir.asc x y ≤ 0))).mergeSort
      (fun x y => decide (sortComparator attr SortDir.desc x y ≤ 0))).Pairwise
      (fun a b => cmpVal (getAttr a attr) (getAttr b attr) ≠ 0) :=
    (List.Perm.pairwise_iff (fun {x y} hxy => cmp_ne_symm attr x y hxy) hperm2).mpr hdist1
  have hgt2 : ((l.mergeSort (fun x y => decide (sortComparator attr SortDir.asc x y ≤ 0))).mergeSort
      (fun x y => decide (sortComparator attr SortDir.desc x y ≤ 0))).Pairwise
      (fun a b => 0 < cmpVal (getAttr a attr) (getAttr b attr)) := by
    refine (hsort2.and hdist2).imp ?_
    intro a b hab
    obtain ⟨h1, h2⟩ := hab
    rw [decide_eq_true_iff, sortComparator_desc] at h1
    omega
  have hrev : ((l.mergeSort (fun x y => decide (sortComparator attr SortDir.asc x y ≤ 0))).reverse).Pairwise
      (fun a b => 0 < cmpVal (getAttr a attr) (getAttr b attr)) := by
    rw [List.pairwise_reverse]
    refine hlt1.imp ?_
    intro a b hab
    have := cmpVal_antisymm (getAttr a attr) (getAttr b attr)
    omega
  have hperm3 : (((l.mergeSort (fun x y => decide (sortComparator attr SortDir.asc x y ≤ 0))).mergeSort
      (fun x y => decide (sortComparator attr SortDir.desc x y ≤ 0)))).Perm
      ((l.mergeSort (fun x y => decide (sortComparator attr SortDir.asc x y ≤ 0))).reverse) :=
    hperm2.trans (List.reverse_perm _).symm
  exact eq_of_perm_of_pairwise
    (fun a b hab => by
      have := cmpVal_antisymm (getAttr a attr) (getAttr b attr)
      omega)
    hperm3 hgt2 hrev

/-! Claim theorems. -/

/-- C8: sortData is a stable sort: for every value of the sort key, the
subsequence of published records carrying exactly that key value is unchanged
by the sort, so tied records keep their previous relative order. -/
theorem sortData_stable (st : AppState) (attr : String) (k : JsVal) :
    (sortData st attr).published.filter (fun r => decide (getAttr r attr = k))
      = st.published.filter (fun r => decide (getAttr r attr = k)) := by
  rw [sortData_published]
  unfold jsSort
  exact mergeSort_filter_tied attr (newDirection st attr) k st.published

/-- C2: a record of the dataset is kept by `searchData t` exactly when `t` is
empty, or `make` or `model` contains `t` case-insensitively, or the decimal
string of `price` contains `t` literally; and the result is a subsequence of
the dataset, so matching records keep their relative order. -/
theorem searchData_filter_correct (st : AppState) (t : String) (r : DataType)
    (hr : r ∈ st.data) :
    (r ∈ (searchData st t).1 ↔
      (t = "" ∨ isSubList (toLowerChars t) (toLowerChars r.make) = true
        ∨ isSubList (toLowerChars t) (toLowerChars r.model) = true
        ∨ jsIncludes (toString r.price) t = true))
    ∧ (searchData st t).1.Sublist st.data := by
  constructor
  · by_cases h : t = ""
    · simp [searchData, h, hr]
    · simp only [searchData, if_neg h]
      rw [List.mem_filter]
      simp [matchesText, hr, h, or_assoc]
  · by_cases h : t = ""
    · simp [searchData, h]
    · simp only [searchData, if_neg h]
      exact List.filter_sublist st.data

/-- Witness for C2 at a concrete dataset, text and record. -/
theorem searchData_filter_correct_witness :
    (rBeta ∈ (searchData baseState "1").1 ↔
      ("1" = "" ∨ isSubList (toLowerChars "1") (toLowerChars rBeta.make) = true
        ∨ isSubList (toLowerChars "1") (toLowerChars rBeta.model) = true
        ∨ jsIncludes (toString rBeta.price) "1" = true))
    ∧ (searchData baseState "1").1.Sublist baseState.data :=
  searchData_filter_correct baseState "1" rBeta (by decide)

/-- C5: every `searchData` invocation stores in the returned state a
`totalPages` equal to the ceiling of (number of matching records) divided by
`pageSize`: the unique value with `m ≤ totalPages * pageSize < m + pageSize`. -/
theorem searchData_recomputes_totalPages (st : AppState) (t : String) :
    ((st.data.filter (matchesText t)).length ≤ (searchData st t).2.totalPages * pageSize)
    ∧ ((searchData st t).2.totalPages * pageSize
        < (st.data.filter (matchesText t)).length + pageSize) := by
  have hm : (searchData st t).2.totalPages
      = ((st.data.filter (matchesText t)).length + pageSize - 1) / pageSize := by
    by_cases h : t = ""
    · simp [searchData, h, filter_matchesText_empty]
    · simp [searchData, h]
  rw [hm]
  simp only [pageSize]
  omega

/-- C6: the navigation methods are complete no-ops (no field changes, nothing
republished) outside their bounds: `nextPage` at or beyond the last page,
`previousPage` at page 0, and `jumpToPage` for NaN or any out-of-range
target. -/
theorem pagination_bounds_noops (st : AppState) :
    ((st.totalPages : Int) - 1 ≤ (st.currentPage : Int) → nextPage st = st)
    ∧ (st.currentPage ≤ 0 → previousPage st = st)
    ∧ jumpToPage st none = st
    ∧ (∀ n : Int, (n < 0 ∨ (st.totalPages : Int) ≤ n) → jumpToPage st (some n) = st) := by
  refine ⟨?_, ?_, rfl, ?_⟩
  · intro h
    unfold nextPage
    rw [if_neg (by omega)]
  · intro h
    unfold previousPage
    rw [if_neg (by omega)]
  · intro n hn
    simp only [jumpToPage]
    rw [if_neg (by omega)]

/-- Witness for C6 on a one-page state. -/
theorem pagination_bounds_noops_witness :
    nextPage baseState = baseState ∧ previousPage baseState = baseState
    ∧ jumpToPage baseState none = baseState
    ∧ jumpToPage baseState (some 5) = baseState :=
  ⟨(pagination_bounds_noops baseState).1 (by decide),
   (pagination_bounds_noops baseState).2.1 (by decide),
   (pagination_bounds_noops baseState).2.2.1,
   (pagination_bounds_noops baseState).2.2.2 5 (by decide)⟩

/-- C7: whenever the two compared attribute values differ in type (not both
strings and not both numbers, including an undefined value), the comparator
value before direction negation is 0; the comparison is total and never
raises. -/
theorem cmpVal_mismatch_zero (v w : JsVal)
    (h : jsTypeof v ≠ jsTypeof w ∨ v = .undefined ∨ w = .undefined) :
    cmpVal v w = 0 := by
  cases v <;> cases w <;> simp [cmpVal, jsTypeof] at h ⊢

/-- Witness for C7 at a string/number mismatch. -/
theorem cmpVal_mismatch_zero_witness :
    cmpVal (.str "alpha") (.num 3) = 0 :=
  cmpVal_mismatch_zero (.str "alpha") (.num 3) (by simp [jsTypeof])

/-- C9: a successful page navigation republishes the dataset filtered by the
current search text in the dataset's original order (the sort order applied
earlier is discarded), while the sort state fields stay unchanged. -/
theorem navigation_republishes_filter (st : AppState) (a : String)
    (hs : st.currentSortAttribute = some a) :
    (st.currentPage + 1 < st.totalPages →
      (nextPage st).published = filteredNow st
      ∧ (nextPage st).currentSortAttribute = some a
      ∧ (nextPage st).currentSortDirection = st.currentSortDirection
      ∧ (nextPage st).pubCount = st.pubCount + 1)
    ∧ (0 < st.currentPage →
      (previousPage st).published = filteredNow st
      ∧ (previousPage st).currentSortAttribute = some a
      ∧ (previousPage st).currentSortDirection = st.currentSortDirection
      ∧ (previousPage st).pubCount = st.pubCount + 1)
    ∧ (∀ n : Int, 0 ≤ n → n < (st.totalPages : Int) →
      (jumpToPage st (some n)).published = filteredNow st
      ∧ (jumpToPage st (some n)).currentSortAttribute = some a
      ∧ (jumpToPage st (some n)).currentSortDirection = st.currentSortDirection
      ∧ (jumpToPage st (some n)).pubCount = st.pubCount + 1) := by
  refine ⟨?_, ?_, ?_⟩
  · intro h
    unfold nextPage
    rw [if_pos (by omega : (st.currentPage : Int) < (st.totalPages : Int) - 1)]
    rw [updateDisplayedData_eq]
    exact ⟨rfl, hs, rfl, rfl⟩
  · intro h
    unfold previousPage
    rw [if_pos (by omega : st.currentPage > 0)]
    rw [updateDisplayedData_eq]
    exact ⟨rfl, hs, rfl, rfl⟩
  · intro n h0 h1
    simp only [jumpToPage]
    rw [if_pos ⟨h0, h1⟩]
    rw [updateDisplayedData_eq]
    exact ⟨rfl, hs, rfl, rfl⟩

/-- Witness for C9 on a sorted three-page state. -/
theorem navigation_republishes_filter_witness :
    (nextPage midPageState).published = filteredNow midPageState
    ∧ (previousPage midPageState).currentSortDirection = midPageState.currentSortDirection
    ∧ (jumpToPage midPageState (some 2)).pubCount = midPageState.pubCount + 1 := by
  have h := navigation_republishes_filter midPageState "price" rfl
  exact ⟨(h.1 (by decide)).1, (h.2.1 (by decide)).2.2.1, (h.2.2 2 (by decide) (by decide)).2.2.2⟩

/-- C10: sorting on an attribute that is not a field of the records
republishes the sequence unchanged (the comparator is 0 on every pair), while
still recording the attribute and toggling or initializing the direction. -/
theorem sortData_unknown_attr (st : AppState) (attr : String)
    (h1 : attr ≠ "make") (h2 : attr ≠ "model") (h3 : attr ≠ "price") :
    (sortData st attr).published = st.published
    ∧ (sortData st attr).currentSortAttribute = some attr
    ∧ (sortData st attr).currentSortDirection =
        some (if st.currentSortAttribute = some attr then
                (if st.currentSortDirection = some SortDir.asc then SortDir.desc else SortDir.asc)
              else SortDir.asc) := by
  refine ⟨?_, rfl, rfl⟩
  rw [sortData_published]
  unfold jsSort
  apply List.mergeSort_of_sorted
  have hall : ∀ a b : DataType,
      decide (sortComparator attr (newDirection st attr) a b ≤ 0) = true := by
    intro a b
    rw [decide_eq_true_iff]
    have hgA : getAttr a attr = .undefined := by
      unfold getAttr
      rw [if_neg h1, if_neg h2, if_neg h3]
    have hgB : getAttr b attr = .undefined := by
      unfold getAttr
      rw [if_neg h1, if_neg h2, if_neg h3]
    cases newDirection st attr with
    | asc =>
      rw [sortComparator_asc, hgA, hgB]
      simp [cmpVal]
    | desc =>
      rw [sortComparator_desc, hgA, hgB]
      simp [cmpVal]
  exact List.pairwise_of_forall_mem_list (fun a _ b _ => hall a b)

/-- Witness for C10 with the unknown attribute "color". -/
theorem sortData_unknown_attr_witness :
    (sortData baseState "color").published = baseState.published
    ∧ (sortData baseState "color").currentSortAttribute = some "color" := by
  have h := sortData_unknown_attr baseState "color" (by decide) (by decide) (by decide)
  exact ⟨h.1, h.2.1⟩

/-- C4 counterexample: with two records tied on price, the second of two
consecutive price sorts publishes the same sequence again (the stable sort
keeps tied records in place), not the reverse of the first call's result. -/
theorem sortData_twice_counterexample :
    (sortData (sortData tiedPriceState "price") "price").published
      ≠ ((sortData tiedPriceState "price").published).reverse := by
  have h1 : (sortData tiedPriceState "price").published = [rBeta, rGamma] := by
    rw [sortData_published]
    unfold jsSort
    exact List.mergeSort_of_sorted (by decide)
  have hnd : newDirection (sortData tiedPriceState "price") "price" = SortDir.desc := by decide
  have h2 : (sortData (sortData tiedPriceState "price") "price").published = [rBeta, rGamma] := by
    rw [sortData_published, h1, hnd]
    unfold jsSort
    exact List.mergeSort_of_sorted (by decide)
  rw [h1, h2]
  decide

/-- C4 amended: when the current records are pairwise distinct on the sort
attribute (the comparator is never 0 on two of them) and the attribute is not
already the active sort column, calling sortData twice publishes exactly the
reverse of the first call's published sequence (ascending, then descending). -/
theorem sortData_twice_reverse (st : AppState) (attr : String)
    (hfresh : st.currentSortAttribute ≠ some attr)
    (hdist : st.published.Pairwise
      (fun a b => cmpVal (getAttr a attr) (getAttr b attr) ≠ 0)) :
    (sortData (sortData st attr) attr).published
      = ((sortData st attr).published).reverse := by
  have hd1 : newDirection st attr = SortDir.asc := by
    unfold newDirection
    rw [if_neg hfresh]
  have hd2 : newDirection (sortData st attr) attr = SortDir.desc := by
    have ha : (sortData st attr).currentSortAttribute = some attr := rfl
    have hb : (sortData st attr).currentSortDirection = some (newDirection st attr) := rfl
    unfold newDirection
    rw [ha, if_pos rfl, hb, hd1, if_pos rfl]
  rw [sortData_published (sortData st attr) attr, hd2, sortData_published st attr, hd1]
  exact jsSort_desc_reverse attr st.published hdist

/-- Witness for C4 amended on two records with distinct prices. -/
theorem sortData_twice_reverse_witness :
    (sortData (sortData baseState "price") "price").published
      = ((sortData baseState "price").published).reverse :=
  sortData_twice_reverse baseState "price" (by decide) (by decide)

/-- C1 counterexample: on a state sorted by price, an in-range jumpToPage
publishes the filtered data in dataset order, not the page the spec's
filter-sort-slice pipeline would produce while currentSortAttribute is set. -/
theorem pipeline_counterexample :
    visiblePage (jumpToPage sortedByPriceState (some 0))
      ≠ specPipeline (jumpToPage sortedByPriceState (some 0)) := by
  intro hEq
  have hswap := mergeSort_swap "price" .asc rAlpha rBeta (by decide)
  have hv : visiblePage (jumpToPage sortedByPriceState (some 0)) = [rAlpha, rBeta] := by decide
  have hattr : (jumpToPage sortedByPriceState (some 0)).currentSortAttribute
      = some "price" := by decide
  have hdir : (jumpToPage sortedByPriceState (some 0)).currentSortDirection
      = some SortDir.asc := by decide
  have hfilt : filteredNow (jumpToPage sortedByPriceState (some 0)) = [rAlpha, rBeta] := by decide
  have hpage : (jumpToPage sortedByPriceState (some 0)).currentPage = 0 := by decide
  rw [hv] at hEq
  simp only [specPipeline, hattr, hdir, hfilt, hpage] at hEq
  simp only [jsSort] at hEq
  rw [hswap] at hEq
  exact absurd hEq (by decide)

/-- C1 amended: every publish runs filter before slicing, but the sort step is
not re-run on search emissions or page navigation even when a sort attribute
is set; only sortData itself sorts, and it sorts the previously published
(already filtered) sequence without re-filtering. -/
theorem pipeline_order_amended (st : AppState) (t attr : String) :
    visiblePage (searchEmit st t) = filterPipeline (searchEmit st t)
    ∧ (st.currentPage + 1 < st.totalPages →
        visiblePage (nextPage st) = filterPipeline (nextPage st))
    ∧ (0 < st.currentPage →
        visiblePage (previousPage st) = filterPipeline (previousPage st))
    ∧ (∀ n : Int, 0 ≤ n → n < (st.totalPages : Int) →
        visiblePage (jumpToPage st (some n)) = filterPipeline (jumpToPage st (some n)))
    ∧ visiblePage (sortData st attr) =
        ((jsSort (sortComparator attr (newDirection st attr)) st.published).drop
          (st.currentPage * pageSize)).take pageSize := by
  refine ⟨rfl, ?_, ?_, ?_, rfl⟩
  · intro h
    unfold nextPage
    rw [if_pos (by omega : (st.currentPage : Int) < (st.totalPages : Int) - 1)]
    rfl
  · intro h
    unfold previousPage
    rw [if_pos (by omega : st.currentPage > 0)]
    rfl
  · intro n h0 h1
    simp only [jumpToPage]
    rw [if_pos ⟨h0, h1⟩]
    rfl

/-- Witness for C1 amended on a three-page state. -/
theorem pipeline_order_amended_witness :
    visiblePage (searchEmit midPageState "beta") = filterPipeline (searchEmit midPageState "beta")
    ∧ visiblePage (nextPage midPageState) = filterPipeline (nextPage midPageState)
    ∧ visiblePage (previousPage midPageState) = filterPipeline (previousPage midPageState)
    ∧ visiblePage (jumpToPage midPageState (some 2))
        = filterPipeline (jumpToPage midPageState (some 2)) := by
  have h := pipeline_order_amended midPageState "beta" "price"
  exact ⟨h.1, h.2.1 (by decide), h.2.2.1 (by decide), h.2.2.2.1 2 (by decide) (by decide)⟩

/-- C3 counterexample: from a consistent state on page 1 of 2, a search that
shrinks the filtered set to a single record leaves currentPage at 1 while
totalPages becomes 1, violating currentPage < max 1 totalPages. -/
theorem pageInvariant_counterexample :
    pageInvariant shrinkState ∧ ¬ pageInvariant (searchEmit shrinkState "bb") := by
  constructor
  · decide
  · decide

/-- C3 amended: the bound 0 ≤ currentPage < max 1 totalPages is preserved by
every navigation call and by sortData (assuming the cached totalPages is
consistent with the current filter), but a search emission that shrinks the
filtered set can violate it: currentPage is not re-clamped. -/
theorem pageInvariant_preserved (st : AppState) (attr : String) (n : Option Int)
    (hinv : pageInvariant st) (hcons : totalPagesConsistent st) :
    pageInvariant (nextPage st) ∧ pageInvariant (previousPage st)
    ∧ pageInvariant (jumpToPage st n) ∧ pageInvariant (sortData st attr) := by
  refine ⟨?_, ?_, ?_, hinv⟩
  · unfold nextPage
    split_ifs with h
    · rw [updateDisplayedData_eq]
      show st.currentPage + 1
        < max 1 (((filteredNow { st with currentPage := st.currentPage + 1 }).length
            + pageSize - 1) / pageSize)
      have he : filteredNow { st with currentPage := st.currentPage + 1 }
          = filteredNow st := rfl
      rw [he, ← hcons]
      omega
    · exact hinv
  · unfold previousPage
    split_ifs with h
    · rw [updateDisplayedData_eq]
      show st.currentPage - 1
        < max 1 (((filteredNow { st with currentPage := st.currentPage - 1 }).length
            + pageSize - 1) / pageSize)
      have he : filteredNow { st with currentPage := st.currentPage - 1 }
          = filteredNow st := rfl
      rw [he, ← hcons]
      omega
    · exact hinv
  · match n with
    | none => exact hinv
    | some m =>
      simp only [jumpToPage]
      split_ifs with h
      · rw [updateDisplayedData_eq]
        show m.toNat
          < max 1 (((filteredNow { st with currentPage := m.toNat }).length
              + pageSize - 1) / pageSize)
        have he : filteredNow { st with currentPage := m.toNat }
            = filteredNow st := rfl
        rw [he, ← hcons]
        omega
      · exact hinv

/-- Witness for C3 amended on a consistent one-page state. -/
theorem pageInvariant_preserved_witness :
    pageInvariant (nextPage baseState) ∧ pageInvariant (previousPage baseState)
    ∧ pageInvariant (jumpToPage baseState (some 0)) ∧ pageInvariant (sortData baseState "price") :=
  pageInvariant_preserved baseState "price" (some 0) (by decide) (by decide)

end GridApp
